import Mathlib

/-!
Verification of the KrishiLink server's interest-acceptance and stock-decrement
protocol, shallowly embedded from the JavaScript source.

The repository holds three generations of route logic:
* the current application file (served routes `PATCH /api/interests/:id`,
  `PUT /api/interests/status`, `POST /api/interests`, `PUT /api/crops/:id`,
  `POST /api/crops`), embedded below with their source names;
* a router variant of the crop routes (`src/unnamed/part_000`), embedded as
  `routerPutCrop`;
* a legacy interests router (`src/unnamed/part_001`), embedded as
  `legacyPostInterests` / `legacyPutInterestStatus`.

MongoDB documents are embedded as Lean structures; `updateOne` with a filter,
`$set` / `$inc` / `$push` operators and `arrayFilters` is embedded as a pure
function replacing the first crop in the collection list that matches the
filter, returning the new list together with the reported modified count.  The
store applies one update atomically, so an update is one transition of the
collection state.  `new Date()` values are passed in as a `now : Nat`
parameter.  `modifiedCount` is modelled as the matched count: every update in
scope sets a fresh `updatedAt`, so a matched document is modified.
`ObjectId.isValid` format checks are transport-level string checks and are not
modelled; document ids are opaque strings.
-/

namespace KrishiLink

/-- Buyer or owner identity block (`owner: { ownerEmail, ownerName }`). -/
structure Owner where
  ownerEmail : String
  ownerName : String
deriving Repr, DecidableEq

/-- An interest sub-document embedded in a crop's `interests` array, as built
by `POST /api/interests`. -/
structure Interest where
  _id : String
  cropId : String
  userEmail : String
  userName : String
  quantity : Int
  message : String
  status : String
  createdAt : Nat
  updatedAt : Option Nat
deriving Repr, DecidableEq

/-- A crop document of the `crops` collection. -/
structure Crop where
  _id : String
  name : String
  type : String
  pricePerUnit : Int
  unit : String
  quantity : Int
  description : String
  location : String
  image : String
  owner : Owner
  status : String
  interests : List Interest
  createdAt : Nat
  updatedAt : Nat
deriving Repr, DecidableEq

/-- An HTTP JSON response, reduced to the fields the routes set:
`res.status(...)`, `success`, `message`, and the optional `warning`. -/
structure Resp where
  status : Nat
  success : Bool
  message : String
  warning : Option String
deriving Repr, DecidableEq

/-- Replace the first element satisfying `p` by its image under `g`; return
the new list and the number of documents matched (0 or 1).  This is the
embedding of MongoDB `updateOne`: the whole replacement of the matched
document is a single atomic store transition. -/
def updateFirst (p : Crop → Bool) (g : Crop → Crop) : List Crop → List Crop × Nat
  | [] => ([], 0)
  | c :: rest =>
    if p c then (g c :: rest, 1)
    else
      let r := updateFirst p g rest
      (c :: r.1, r.2)

/-- Filter of the `updateOne` calls issued by the interest-status routes:
match on `_id`, optionally also on `quantity: { $gte: m }`. -/
structure CropFilter where
  _id : String
  minQuantity : Option Int
deriving Repr, DecidableEq

def matchesFilter (f : CropFilter) (c : Crop) : Bool :=
  c._id == f._id &&
    (match f.minQuantity with
     | none => true
     | some m => decide (m ≤ c.quantity))

/-- The `updateQuery` object built by the interest-status routes: `$set` of
the matched array element's `status`/`updatedAt` (via `arrayFilters`
`elem._id = elemId`) and of the crop's `updatedAt`, plus either an absolute
`$set` of `quantity` (legacy router) or a `$inc` of `quantity` (current
routes). -/
structure StatusUpdate where
  newStatus : String
  elemId : String
  now : Nat
  setQuantity : Option Int
  incQuantity : Option Int
deriving Repr, DecidableEq

def applyInterestSet (u : StatusUpdate) (i : Interest) : Interest :=
  if i._id == u.elemId then { i with status := u.newStatus, updatedAt := some u.now } else i

/-- Apply a `StatusUpdate` to one crop document: one atomic store transition
carrying both the array-element status write and the quantity change. -/
def applyStatusUpdate (u : StatusUpdate) (c : Crop) : Crop :=
  let q1 := match u.setQuantity with | none => c.quantity | some v => v
  let q2 := match u.incQuantity with | none => q1 | some d => q1 + d
  { c with
    quantity := q2
    updatedAt := u.now
    interests := c.interests.map (applyInterestSet u) }

def updateOne (f : CropFilter) (u : StatusUpdate) (db : List Crop) : List Crop × Nat :=
  updateFirst (matchesFilter f) (applyStatusUpdate u) db

/-! Response messages, transliterated from the source (apostrophes dropped). -/

def missingStatusMsg : String := "Missing required field: status"
def invalidStatusPatchMsg : String :=
  "Invalid status. Must be accepted, rejected, pending, or cancelled"
def missingPutFieldsMsg : String := "Missing required fields: interestId, cropId, status"
def invalidStatusPutMsg : String := "Invalid status. Must be accepted, rejected, or pending"
def cropNotFoundMsg : String := "Crop not found"
def interestNotFoundMsg : String := "Interest not found"
def alreadyAcceptedMsg : String := "Interest has already been accepted"
def insufficientMsg (requested available : Int) : String :=
  "Insufficient quantity available. Requested: " ++ toString requested ++
    ", Available: " ++ toString available
def failedUpdateMsg : String := "Failed to update interest status"
def interestSuccessMsg (status : String) : String := "Interest " ++ status ++ " successfully"
def missingInterestFieldsMsg : String := "Missing required fields: cropId, userEmail, userName"
def duplicateInterestMsg : String := "You have already shown interest in this crop"
def negativeQuantityMsg : String := "Quantity cannot be negative"
def zeroQuantityMsg : String := "Quantity must be greater than 0"
def availabilityWarning (requested available : Int) (unit : String) : String :=
  "Note: You requested " ++ toString requested ++ " " ++ unit ++ ", but only " ++
    toString available ++ " " ++ unit ++ " is currently available"
def interestAddedMsg : String := "Interest added successfully"
def failedAddMsg : String := "Failed to add interest to crop"
def unauthorizedUpdateMsg : String := "Unauthorized: You can only update your own crops"
def priceNonPositiveMsg : String := "Price per unit must be greater than 0"
def noChangesMsg : String := "No changes made to the crop"
def cropUpdatedMsg : String := "Crop updated successfully"
def missingCropFieldsMsg : String := "Missing required fields"
def quantityNonPositiveMsg : String := "Quantity must be greater than 0"
def cropAddedMsg : String := "Crop added successfully"

/-- Result of the read/validation phase of an interest-status route: either an
early error response (no store write), or the filter and update object of the
single `updateOne` call the route will issue. -/
inductive StatusPlan where
  | err (r : Resp)
  | commit (f : CropFilter) (u : StatusUpdate)
deriving Repr, DecidableEq

def patchValidStatuses : List String := ["accepted", "rejected", "pending", "cancelled"]

def putValidStatuses : List String := ["accepted", "rejected", "pending"]

/-- Read/validation phase of `PATCH /api/interests/:id` (current application
file): locate the owning crop by scanning `interests._id`, reject a re-accept,
pre-check availability, and build the conditional update. -/
def patchInterestRead (interestId status : String) (now : Nat) (db : List Crop) : StatusPlan :=
  if status = "" then .err ⟨400, false, missingStatusMsg, none⟩
  else if status ∉ patchValidStatuses then .err ⟨400, false, invalidStatusPatchMsg, none⟩
  else
    match db.find? (fun c => c.interests.any (fun i => i._id == interestId)) with
    | none => .err ⟨404, false, interestNotFoundMsg, none⟩
    | some crop =>
      match crop.interests.find? (fun i => i._id == interestId) with
      | none => .err ⟨404, false, interestNotFoundMsg, none⟩
      | some interest =>
        if interest.status = "accepted" ∧ status = "accepted" then
          .err ⟨400, false, alreadyAcceptedMsg, none⟩
        else if status = "accepted" ∧ 0 < interest.quantity then
          if crop.quantity < interest.quantity then
            .err ⟨400, false, insufficientMsg interest.quantity crop.quantity, none⟩
          else
            .commit ⟨crop._id, some interest.quantity⟩
              ⟨status, interestId, now, none, some (-interest.quantity)⟩
        else
          .commit ⟨crop._id, none⟩ ⟨status, interestId, now, none, none⟩

/-- Commit phase shared by the interest-status routes: issue the single
`updateOne`, map a zero modified count to the generic 500 failure. -/
def statusCommit (p : StatusPlan) (db : List Crop) : Resp × List Crop :=
  match p with
  | .err r => (r, db)
  | .commit f u =>
    let r := updateOne f u db
    if r.2 = 0 then (⟨500, false, failedUpdateMsg, none⟩, r.1)
    else (⟨200, true, interestSuccessMsg u.newStatus, none⟩, r.1)

/-- Full sequential `PATCH /api/interests/:id` handler. -/
def patchInterestStatus (interestId status : String) (now : Nat) (db : List Crop) :
    Resp × List Crop :=
  statusCommit (patchInterestRead interestId status now db) db

/-- Read/validation phase of `PUT /api/interests/status` (current application
file): same acceptance logic as the PATCH route, but the crop is addressed by
`cropId` and `cancelled` is not in the accepted status list. -/
def putInterestStatusRead (interestId cropId status : String) (now : Nat) (db : List Crop) :
    StatusPlan :=
  if interestId = "" ∨ cropId = "" ∨ status = "" then
    .err ⟨400, false, missingPutFieldsMsg, none⟩
  else if status ∉ putValidStatuses then .err ⟨400, false, invalidStatusPutMsg, none⟩
  else
    match db.find? (fun c => c._id == cropId) with
    | none => .err ⟨404, false, cropNotFoundMsg, none⟩
    | some crop =>
      match crop.interests.find? (fun i => i._id == interestId) with
      | none => .err ⟨404, false, interestNotFoundMsg, none⟩
      | some interest =>
        if interest.status = "accepted" ∧ status = "accepted" then
          .err ⟨400, false, alreadyAcceptedMsg, none⟩
        else if status = "accepted" ∧ 0 < interest.quantity then
          if crop.quantity < interest.quantity then
            .err ⟨400, false, insufficientMsg interest.quantity crop.quantity, none⟩
          else
            .commit ⟨cropId, some interest.quantity⟩
              ⟨status, interestId, now, none, some (-interest.quantity)⟩
        else
          .commit ⟨cropId, none⟩ ⟨status, interestId, now, none, none⟩

/-- Full sequential `PUT /api/interests/status` handler (current file). -/
def putInterestStatus (interestId cropId status : String) (now : Nat) (db : List Crop) :
    Resp × List Crop :=
  statusCommit (putInterestStatusRead interestId cropId status now db) db

/-- Read/validation phase of the legacy router's `PUT /api/interests/status`
(`src/unnamed/part_001`): no re-accept check, no availability pre-check, and
the quantity write is an absolute `$set` of
`Math.max(0, crop.quantity - interest.quantity)` computed from the read, with
no quantity precondition on the filter. -/
def legacyPutInterestStatusRead (interestId cropId status : String) (now : Nat)
    (db : List Crop) : StatusPlan :=
  if interestId = "" ∨ cropId = "" ∨ status = "" then
    .err ⟨400, false, missingPutFieldsMsg, none⟩
  else if status ∉ putValidStatuses then .err ⟨400, false, invalidStatusPutMsg, none⟩
  else
    match db.find? (fun c => c._id == cropId) with
    | none => .err ⟨404, false, cropNotFoundMsg, none⟩
    | some crop =>
      match crop.interests.find? (fun i => i._id == interestId) with
      | none => .err ⟨404, false, interestNotFoundMsg, none⟩
      | some interest =>
        if status = "accepted" ∧ 0 < interest.quantity then
          .commit ⟨cropId, none⟩
            ⟨status, interestId, now, some (max 0 (crop.quantity - interest.quantity)), none⟩
        else
          .commit ⟨cropId, none⟩ ⟨status, interestId, now, none, none⟩

/-- Full sequential legacy `PUT /api/interests/status` handler. -/
def legacyPutInterestStatus (interestId cropId status : String) (now : Nat) (db : List Crop) :
    Resp × List Crop :=
  statusCommit (legacyPutInterestStatusRead interestId cropId status now db) db

/-- Request body of `POST /api/interests`.  Absent JSON fields are `none`;
the falsy string checks of the source read absent strings as `""`. -/
structure InterestReq where
  cropId : String
  userEmail : String
  userName : String
  quantity : Option Int
  message : Option String
deriving Repr, DecidableEq

/-- JavaScript `quantity || 0`: an absent quantity reads as 0 (and a 0 value
is falsy, collapsing to the same 0). -/
def jsOrZero : Option Int → Int
  | none => 0
  | some v => v

def mkInterest (newId : String) (r : InterestReq) (q : Int) (now : Nat) : Interest :=
  ⟨newId, r.cropId, r.userEmail, r.userName, q, r.message.getD "", "pending", now, none⟩

/-- The `$push`-with-`$set` update of the interest-submission routes,
appending the new interest to the crop addressed by `cropId`. -/
def pushInterest (cropId : String) (ni : Interest) (now : Nat) (db : List Crop) :
    List Crop × Nat :=
  updateFirst (fun c => c._id == cropId)
    (fun c => { c with interests := c.interests ++ [ni], updatedAt := now }) db

/-- `POST /api/interests` (current application file): required fields, crop
lookup, duplicate-buyer check, quantity validation, advisory over-request
warning, then one `$push` update. -/
def postInterests (r : InterestReq) (newId : String) (now : Nat) (db : List Crop) :
    Resp × List Crop :=
  if r.cropId = "" ∨ r.userEmail = "" ∨ r.userName = "" then
    (⟨400, false, missingInterestFieldsMsg, none⟩, db)
  else
    match db.find? (fun c => c._id == r.cropId) with
    | none => (⟨404, false, cropNotFoundMsg, none⟩, db)
    | some crop =>
      if crop.interests.any (fun i => i.userEmail == r.userEmail) then
        (⟨400, false, duplicateInterestMsg, none⟩, db)
      else
        let requested := jsOrZero r.quantity
        if requested < 0 then (⟨400, false, negativeQuantityMsg, none⟩, db)
        else if requested = 0 then (⟨400, false, zeroQuantityMsg, none⟩, db)
        else
          let warning :=
            if crop.quantity < requested then
              some (availabilityWarning requested crop.quantity crop.unit)
            else none
          let p := pushInterest r.cropId (mkInterest newId r requested now) now db
          if p.2 = 0 then (⟨500, false, failedAddMsg, none⟩, p.1)
          else (⟨201, true, interestAddedMsg, warning⟩, p.1)

/-- `POST /api/interests` of the legacy router (`src/unnamed/part_001`): same
lookup and duplicate check, but no quantity validation and no warning; the
raw `quantity || 0` value is stored. -/
def legacyPostInterests (r : InterestReq) (newId : String) (now : Nat) (db : List Crop) :
    Resp × List Crop :=
  if r.cropId = "" ∨ r.userEmail = "" ∨ r.userName = "" then
    (⟨400, false, missingInterestFieldsMsg, none⟩, db)
  else
    match db.find? (fun c => c._id == r.cropId) with
    | none => (⟨404, false, cropNotFoundMsg, none⟩, db)
    | some crop =>
      if crop.interests.any (fun i => i.userEmail == r.userEmail) then
        (⟨400, false, duplicateInterestMsg, none⟩, db)
      else
        let p := pushInterest r.cropId (mkInterest newId r (jsOrZero r.quantity) now) now db
        if p.2 = 0 then (⟨500, false, failedAddMsg, none⟩, p.1)
        else (⟨201, true, interestAddedMsg, none⟩, p.1)

/-- A crop-route request body (`req.body` of `PUT /api/crops/:id` and
`POST /api/crops`).  Absent JSON fields are `none`. -/
structure CropBody where
  _id : Option String
  interests : Option (List Interest)
  createdAt : Option Nat
  name : Option String
  type : Option String
  pricePerUnit : Option Int
  unit : Option String
  quantity : Option Int
  description : Option String
  location : Option String
  image : Option String
  owner : Option Owner
  status : Option String
deriving Repr, DecidableEq

/-- The destructuring `const { _id, interests, createdAt, ...updateData } =
req.body` of the crop-update routes: drop the three protected keys. -/
def stripProtected (b : CropBody) : CropBody :=
  { b with _id := none, interests := none, createdAt := none }

/-- MongoDB `$set: { ...updateData, updatedAt: now }` applied to a crop
document: every key present in the body overwrites the stored field;
`updatedAt` is always overwritten with the fresh timestamp. -/
def applyCropSet (b : CropBody) (now : Nat) (c : Crop) : Crop :=
  { _id := b._id.getD c._id
    name := b.name.getD c.name
    type := b.type.getD c.type
    pricePerUnit := b.pricePerUnit.getD c.pricePerUnit
    unit := b.unit.getD c.unit
    quantity := b.quantity.getD c.quantity
    description := b.description.getD c.description
    location := b.location.getD c.location
    image := b.image.getD c.image
    owner := b.owner.getD c.owner
    status := b.status.getD c.status
    interests := b.interests.getD c.interests
    createdAt := b.createdAt.getD c.createdAt
    updatedAt := now }

/-- JavaScript `updateData.pricePerUnit !== undefined && updateData.pricePerUnit <= 0`. -/
def badPrice (b : CropBody) : Bool :=
  match b.pricePerUnit with
  | some p => decide (p ≤ 0)
  | none => false

/-- JavaScript `updateData.quantity !== undefined && updateData.quantity < 0`. -/
def badQuantity (b : CropBody) : Bool :=
  match b.quantity with
  | some q => decide (q < 0)
  | none => false

/-- `PUT /api/crops/:id` (current application file): existence and ownership
checks, protected-key strip, value validation, then one `$set` update. -/
def putCrop (cropId userEmail : String) (b : CropBody) (now : Nat) (db : List Crop) :
    Resp × List Crop :=
  match db.find? (fun c => c._id == cropId) with
  | none => (⟨404, false, cropNotFoundMsg, none⟩, db)
  | some existingCrop =>
    if existingCrop.owner.ownerEmail ≠ userEmail then
      (⟨403, false, unauthorizedUpdateMsg, none⟩, db)
    else
      let ud := stripProtected b
      if badPrice ud then (⟨400, false, priceNonPositiveMsg, none⟩, db)
      else if badQuantity ud then (⟨400, false, negativeQuantityMsg, none⟩, db)
      else
        let r := updateFirst (fun c => c._id == cropId) (applyCropSet ud now) db
        if r.2 = 0 then (⟨400, false, noChangesMsg, none⟩, r.1)
        else (⟨200, true, cropUpdatedMsg, none⟩, r.1)

/-- `PUT /api/crops/:id` of the router variant (`src/unnamed/part_000`):
same shape but with no validation of the supplied values. -/
def routerPutCrop (cropId userEmail : String) (b : CropBody) (now : Nat) (db : List Crop) :
    Resp × List Crop :=
  match db.find? (fun c => c._id == cropId) with
  | none => (⟨404, false, cropNotFoundMsg, none⟩, db)
  | some existingCrop =>
    if existingCrop.owner.ownerEmail ≠ userEmail then
      (⟨403, false, unauthorizedUpdateMsg, none⟩, db)
    else
      let ud := stripProtected b
      let r := updateFirst (fun c => c._id == cropId) (applyCropSet ud now) db
      if r.2 = 0 then (⟨400, false, noChangesMsg, none⟩, r.1)
      else (⟨200, true, cropUpdatedMsg, none⟩, r.1)

/-- JavaScript falsy check `!x` on an optional string field. -/
def strFalsy (o : Option String) : Prop := o.getD "" = ""

instance (o : Option String) : Decidable (strFalsy o) := by
  unfold strFalsy; infer_instance

/-- JavaScript `x === undefined || x <= 0`. -/
def missingOrNonPos : Option Int → Bool
  | none => true
  | some v => decide (v ≤ 0)

/-- `POST /api/crops` (current application file): field validation, then an
`insertOne` of the body spread with fresh `interests: []`, `status:
"pending"` and timestamps. -/
def postCrops (b : CropBody) (newId : String) (now : Nat) (db : List Crop) :
    Resp × List Crop :=
  if strFalsy b.name ∨ strFalsy b.type ∨ strFalsy b.unit ∨ strFalsy b.description ∨
      strFalsy b.location then
    (⟨400, false, missingCropFieldsMsg, none⟩, db)
  else if missingOrNonPos b.pricePerUnit then (⟨400, false, priceNonPositiveMsg, none⟩, db)
  else if missingOrNonPos b.quantity then (⟨400, false, quantityNonPositiveMsg, none⟩, db)
  else
    let newCrop : Crop :=
      { _id := b._id.getD newId
        name := b.name.getD ""
        type := b.type.getD ""
        pricePerUnit := b.pricePerUnit.getD 0
        unit := b.unit.getD ""
        quantity := b.quantity.getD 0
        description := b.description.getD ""
        location := b.location.getD ""
        image := b.image.getD ""
        owner := b.owner.getD ⟨"", ""⟩
        status := "pending"
        interests := []
        createdAt := now
        updatedAt := now }
    (⟨201, true, cropAddedMsg, none⟩, db ++ [newCrop])

/-! Concrete fixtures used by counterexamples and witnesses. -/

/-- Pending interest of buyer `b1@x` for 60 kg. -/
def iEx1 : Interest := ⟨"i1", "c1", "b1@x", "B1", 60, "", "pending", 0, none⟩

/-- Pending interest of buyer `b2@x` for 50 kg. -/
def iEx2 : Interest := ⟨"i2", "c1", "b2@x", "B2", 50, "", "pending", 0, none⟩

/-- A crop with 100 kg remaining and the two pending interests above. -/
def cEx : Crop :=
  { _id := "c1", name := "Rice", type := "grain", pricePerUnit := 10, unit := "kg",
    quantity := 100, description := "d", location := "l", image := "",
    owner := ⟨"own@x", "Owner"⟩, status := "pending",
    interests := [iEx1, iEx2], createdAt := 0, updatedAt := 0 }

/-! Store-level lemmas about `updateFirst`. -/

/-- Relation between a stored crop and its image under a crop-update request
with body `b` at time `now`: the protected fields `_id`, `interests` and
`createdAt` are untouched, `updatedAt` is freshened, and every other field is
overwritten exactly when the body supplies it. -/
def FrameOK (b : CropBody) (now : Nat) (c1 c2 : Crop) : Prop :=
  c2._id = c1._id ∧ c2.interests = c1.interests ∧ c2.createdAt = c1.createdAt ∧
  c2.updatedAt = now ∧
  c2.name = b.name.getD c1.name ∧
  c2.type = b.type.getD c1.type ∧
  c2.pricePerUnit = b.pricePerUnit.getD c1.pricePerUnit ∧
  c2.unit = b.unit.getD c1.unit ∧
  c2.quantity = b.quantity.getD c1.quantity ∧
  c2.description = b.description.getD c1.description ∧
  c2.location = b.location.getD c1.location ∧
  c2.image = b.image.getD c1.image ∧
  c2.owner = b.owner.getD c1.owner ∧
  c2.status = b.status.getD c1.status

/-- Every stored crop has a non-negative remaining quantity. -/
def dbNonneg (db : List Crop) : Prop := ∀ c ∈ db, 0 ≤ c.quantity

instance (db : List Crop) : Decidable (dbNonneg db) := by
  unfold dbNonneg; infer_instance

/-- A status-route update is guarded: an absolute quantity write is
non-negative, and an increment is matched by a `$gte` precondition on the
filter covering the decremented amount. -/
def guardedUpdate (f : CropFilter) (u : StatusUpdate) : Prop :=
  (∀ v, u.setQuantity = some v → 0 ≤ v) ∧
  (∀ d, u.incQuantity = some d → u.setQuantity = none ∧ f.minQuantity = some (-d))

/-- Crop-update body supplying a negative quantity. -/
def negBody : CropBody :=
  ⟨none, none, none, none, none, none, none, some (-5), none, none, none, none, none⟩

/-- Benign crop-update body. -/
def bodyEx : CropBody :=
  ⟨none, none, none, some "Rice2", none, some 12, none, some 10, none, none, none, none, none⟩

/-- Signature of a crop's interest list: the ids and requested quantities, in
order.  Interest-status transitions may change statuses and timestamps but
never this signature. -/
def interestSig (c : Crop) : List (String × Int) :=
  c.interests.map (fun i => (i._id, i.quantity))

/-- Sum of the requested quantities of the interests currently in status
`accepted`. -/
def sumAccepted : List Interest → Int
  | [] => 0
  | i :: t => (if i.status == "accepted" then i.quantity else 0) + sumAccepted t

/-- Interleaved executions of concurrent `PATCH /api/interests/:id`
acceptance attempts against the single crop `c0`.  Each step commits the
plan computed by the route's read phase against a snapshot `snap` of the
crop.  Reads do not change the store, and every state reachable in a run
agrees with `c0` on `_id` and `interestSig` (statuses and stock change, ids
and requested quantities do not), so quantifying over all agreeing
snapshots covers the plan produced by a read taken at any earlier point of
any interleaving of reads and commits. -/
inductive AcceptRun (c0 : Crop) : List Crop → Prop
  | refl : AcceptRun c0 [c0]
  | step (db : List Crop) (snap : Crop) (iid : String) (now : Nat) :
      AcceptRun c0 db →
      snap._id = c0._id →
      interestSig snap = interestSig c0 →
      AcceptRun c0 ((statusCommit (patchInterestRead iid "accepted" now [snap]) db).2)

/-- First step of the legacy two-acceptance race: accept `i1` (60 kg) on the
100 kg crop. -/
def legacyRaceDb1 : List Crop :=
  (statusCommit (legacyPutInterestStatusRead "i1" "c1" "accepted" 1 [cEx]) [cEx]).2

/-- Second step of the legacy race: the plan for `i2` (50 kg) was computed
from the stale snapshot `[cEx]` read before the first commit, and is applied
after it — the interleaving read A, read B, commit A, commit B. -/
def legacyRaceDb2 : List Crop :=
  (statusCommit (legacyPutInterestStatusRead "i2" "c1" "accepted" 2 [cEx]) legacyRaceDb1).2

/-- The fixture crop after a concurrent acceptance shrank its stock to 50. -/
def cShrunk : Crop := { cEx with quantity := 50 }

/-- An interest that has already been accepted (30 kg). -/
def iAcc : Interest := ⟨"i1", "c1", "b1@x", "B1", 30, "", "accepted", 0, none⟩

/-- A 100 kg crop whose only interest is already accepted. -/
def cAcc : Crop := { cEx with interests := [iAcc] }

/-- PATCH-route run: accept `i1` with a fresh read. -/
def patchRaceDb1 : List Crop :=
  (statusCommit (patchInterestRead "i1" "accepted" 1 [cEx]) [cEx]).2

/-- PATCH-route run continued: the plan for `i2` comes from the stale
snapshot `cEx` read before the first commit (same interleaving as the
legacy race). -/
def patchRaceDb2 : List Crop :=
  (statusCommit (patchInterestRead "i2" "accepted" 2 [cEx]) patchRaceDb1).2

/-! Store-level lemmas and theorems. -/

theorem updateFirst_snd_eq_zero (p : Crop → Bool) (g : Crop → Crop) :
    ∀ db : List Crop, (updateFirst p g db).2 = 0 → (updateFirst p g db).1 = db := by
  intro db
  induction db with
  | nil => intro _; rfl
  | cons c rest ih =>
    intro h
    by_cases hp : p c
    · simp [updateFirst, hp] at h
    · simp only [updateFirst, hp, if_neg, Bool.false_eq_true, if_false] at h ⊢
      simp [ih h]

theorem updateFirst_forall2 (p : Crop → Bool) (g : Crop → Crop) :
    ∀ db : List Crop,
      List.Forall₂ (fun a b => b = a ∨ (p a = true ∧ b = g a)) db (updateFirst p g db).1 := by
  intro db
  induction db with
  | nil => exact List.Forall₂.nil
  | cons c rest ih =>
    by_cases hp : p c
    · simp only [updateFirst, hp, if_true]
      exact List.Forall₂.cons (Or.inr ⟨hp, rfl⟩)
        ((List.forall₂_same).2 (fun x _ => Or.inl rfl))
    · simp only [updateFirst, hp, Bool.false_eq_true, if_false]
      exact List.Forall₂.cons (Or.inl rfl) ih

theorem updateFirst_of_find? (p : Crop → Bool) (g : Crop → Crop) :
    ∀ (db : List Crop) (c : Crop), db.find? p = some c →
      ∃ l1 l2, db = l1 ++ c :: l2 ∧ (∀ x ∈ l1, ¬ p x) ∧
        updateFirst p g db = (l1 ++ g c :: l2, 1) := by
  intro db
  induction db with
  | nil => intro c h; simp at h
  | cons d rest ih =>
    intro c h
    by_cases hp : p d
    · rw [List.find?_cons_of_pos _ hp] at h
      injection h with h
      subst h
      exact ⟨[], rest, rfl, by simp, by simp [updateFirst, hp]⟩
    · rw [List.find?_cons_of_neg _ hp] at h
      obtain ⟨l1, l2, hdb, hl1, hupd⟩ := ih c h
      refine ⟨d :: l1, l2, by simp [hdb], ?_, ?_⟩
      · intro x hx
        rcases List.mem_cons.1 hx with hx | hx
        · subst hx; exact hp
        · exact hl1 x hx
      · simp [updateFirst, hp, hupd]

/-! Frame property of the crop-update routes. -/

theorem applyCropSet_strip_frame (b : CropBody) (now : Nat) (c : Crop) :
    FrameOK b now c (applyCropSet (stripProtected b) now c) := by
  simp [FrameOK, applyCropSet, stripProtected]

theorem putCrop_snd (cropId userEmail : String) (b : CropBody) (now : Nat) (db : List Crop) :
    (putCrop cropId userEmail b now db).2 = db ∨
      (putCrop cropId userEmail b now db).2 =
        (updateFirst (fun c => c._id == cropId) (applyCropSet (stripProtected b) now) db).1 := by
  unfold putCrop
  cases h : db.find? (fun c => c._id == cropId) with
  | none => exact Or.inl rfl
  | some c =>
    simp only []
    split_ifs <;> simp

theorem routerPutCrop_snd (cropId userEmail : String) (b : CropBody) (now : Nat)
    (db : List Crop) :
    (routerPutCrop cropId userEmail b now db).2 = db ∨
      (routerPutCrop cropId userEmail b now db).2 =
        (updateFirst (fun c => c._id == cropId) (applyCropSet (stripProtected b) now) db).1 := by
  unfold routerPutCrop
  cases h : db.find? (fun c => c._id == cropId) with
  | none => exact Or.inl rfl
  | some c =>
    simp only []
    split_ifs <;> simp

theorem forall2_frame_of_updateFirst (b : CropBody) (now : Nat) (cropId : String)
    (db : List Crop) :
    List.Forall₂ (fun c1 c2 => c2 = c1 ∨ FrameOK b now c1 c2) db
      (updateFirst (fun c => c._id == cropId) (applyCropSet (stripProtected b) now) db).1 := by
  refine (updateFirst_forall2 _ _ db).imp ?_
  intro c1 c2 h
  rcases h with h | ⟨_, h⟩
  · exact Or.inl h
  · subst h
    exact Or.inr (applyCropSet_strip_frame b now c1)

/-- C10: for every crop-update request, on both crop-update implementations,
each stored crop is either untouched or related to its old value by
`FrameOK`: `_id`, `interests` and `createdAt` are unchanged regardless of the
request body, `updatedAt` is set to the fresh timestamp, and every remaining
field is modified exactly when the body supplies a value for it. -/
theorem crop_update_preserves_protected_fields (cropId userEmail : String) (b : CropBody)
    (now : Nat) (db : List Crop) :
    List.Forall₂ (fun c1 c2 => c2 = c1 ∨ FrameOK b now c1 c2) db
        (putCrop cropId userEmail b now db).2 ∧
      List.Forall₂ (fun c1 c2 => c2 = c1 ∨ FrameOK b now c1 c2) db
        (routerPutCrop cropId userEmail b now db).2 := by
  constructor
  · rcases putCrop_snd cropId userEmail b now db with h | h <;> rw [h]
    · exact (List.forall₂_same).2 (fun x _ => Or.inl rfl)
    · exact forall2_frame_of_updateFirst b now cropId db
  · rcases routerPutCrop_snd cropId userEmail b now db with h | h <;> rw [h]
    · exact (List.forall₂_same).2 (fun x _ => Or.inl rfl)
    · exact forall2_frame_of_updateFirst b now cropId db

/-! Non-negativity of remaining quantity. -/

theorem applyStatusUpdate_nonneg (f : CropFilter) (u : StatusUpdate) (c : Crop)
    (hm : matchesFilter f c = true) (hg : guardedUpdate f u) (hc : 0 ≤ c.quantity) :
    0 ≤ (applyStatusUpdate u c).quantity := by
  obtain ⟨hset, hinc⟩ := hg
  unfold applyStatusUpdate
  cases hi : u.incQuantity with
  | some d =>
    obtain ⟨hs, hmq⟩ := hinc d hi
    rw [hs]
    simp only []
    unfold matchesFilter at hm
    rw [hmq] at hm
    simp only [Bool.and_eq_true, decide_eq_true_eq] at hm
    linarith [hm.2]
  | none =>
    cases hs : u.setQuantity with
    | some v => simpa using hset v hs
    | none => simpa using hc

theorem updateFirst_preserves (P : Crop → Prop) (p : Crop → Bool) (g : Crop → Crop)
    (hpres : ∀ c, p c = true → P c → P (g c)) :
    ∀ db : List Crop, (∀ c ∈ db, P c) → ∀ c ∈ (updateFirst p g db).1, P c := by
  intro db
  induction db with
  | nil => intro h c hc; simp [updateFirst] at hc
  | cons d rest ih =>
    intro h c hc
    by_cases hp : p d
    · simp only [updateFirst, hp, if_true] at hc
      rcases List.mem_cons.1 hc with hc | hc
      · subst hc; exact hpres d hp (h d (by simp))
      · exact h c (by simp [hc])
    · simp only [updateFirst, hp, Bool.false_eq_true, if_false] at hc
      rcases List.mem_cons.1 hc with hc | hc
      · subst hc; exact h c (by simp)
      · exact ih (fun x hx => h x (by simp [hx])) c hc

theorem updateOne_nonneg (f : CropFilter) (u : StatusUpdate) (db : List Crop)
    (hg : guardedUpdate f u) (hdb : dbNonneg db) : dbNonneg (updateOne f u db).1 :=
  updateFirst_preserves (fun c => 0 ≤ c.quantity) _ _
    (fun c hp hc => applyStatusUpdate_nonneg f u c hp hg hc) db hdb

theorem statusCommit_nonneg (p : StatusPlan) (db : List Crop)
    (hp : ∀ f u, p = .commit f u → guardedUpdate f u) (h : dbNonneg db) :
    dbNonneg (statusCommit p db).2 := by
  cases p with
  | err r => exact h
  | commit f u =>
    unfold statusCommit
    simp only []
    split_ifs <;> exact updateOne_nonneg f u db (hp f u rfl) h

theorem patchInterestRead_guarded (interestId status : String) (now : Nat) (db : List Crop)
    (f : CropFilter) (u : StatusUpdate)
    (h : patchInterestRead interestId status now db = .commit f u) : guardedUpdate f u := by
  unfold patchInterestRead at h
  repeat' split at h
  case _ => exact absurd h (by simp)
  case _ => exact absurd h (by simp)
  case _ => exact absurd h (by simp)
  case _ => exact absurd h (by simp)
  case _ => exact absurd h (by simp)
  case _ => exact absurd h (by simp)
  case _ =>
    injection h with h1 h2
    subst h1
    subst h2
    refine ⟨fun v hv => by simp at hv, fun d hd => ?_⟩
    simp at hd
    subst hd
    simp
  case _ =>
    injection h with h1 h2
    subst h1
    subst h2
    exact ⟨fun v hv => by simp at hv, fun d hd => by simp at hd⟩

theorem putInterestStatusRead_guarded (interestId cropId status : String) (now : Nat)
    (db : List Crop) (f : CropFilter) (u : StatusUpdate)
    (h : putInterestStatusRead interestId cropId status now db = .commit f u) :
    guardedUpdate f u := by
  unfold putInterestStatusRead at h
  repeat' split at h
  case _ => exact absurd h (by simp)
  case _ => exact absurd h (by simp)
  case _ => exact absurd h (by simp)
  case _ => exact absurd h (by simp)
  case _ => exact absurd h (by simp)
  case _ => exact absurd h (by simp)
  case _ =>
    injection h with h1 h2
    subst h1
    subst h2
    refine ⟨fun v hv => by simp at hv, fun d hd => ?_⟩
    simp at hd
    subst hd
    simp
  case _ =>
    injection h with h1 h2
    subst h1
    subst h2
    exact ⟨fun v hv => by simp at hv, fun d hd => by simp at hd⟩

theorem legacyPutInterestStatusRead_guarded (interestId cropId status : String) (now : Nat)
    (db : List Crop) (f : CropFilter) (u : StatusUpdate)
    (h : legacyPutInterestStatusRead interestId cropId status now db = .commit f u) :
    guardedUpdate f u := by
  unfold legacyPutInterestStatusRead at h
  repeat' split at h
  case _ => exact absurd h (by simp)
  case _ => exact absurd h (by simp)
  case _ => exact absurd h (by simp)
  case _ => exact absurd h (by simp)
  case _ =>
    injection h with h1 h2
    subst h1
    subst h2
    refine ⟨fun v hv => ?_, fun d hd => by simp at hd⟩
    simp at hv
    subst hv
    exact le_max_left 0 _
  case _ =>
    injection h with h1 h2
    subst h1
    subst h2
    exact ⟨fun v hv => by simp at hv, fun d hd => by simp at hd⟩

theorem patchInterestStatus_nonneg (interestId status : String) (now : Nat) (db : List Crop)
    (h : dbNonneg db) : dbNonneg (patchInterestStatus interestId status now db).2 :=
  statusCommit_nonneg _ db
    (fun f u hp => patchInterestRead_guarded interestId status now db f u hp) h

theorem putInterestStatus_nonneg (interestId cropId status : String) (now : Nat)
    (db : List Crop) (h : dbNonneg db) :
    dbNonneg (putInterestStatus interestId cropId status now db).2 :=
  statusCommit_nonneg _ db
    (fun f u hp => putInterestStatusRead_guarded interestId cropId status now db f u hp) h

theorem legacyPutInterestStatus_nonneg (interestId cropId status : String) (now : Nat)
    (db : List Crop) (h : dbNonneg db) :
    dbNonneg (legacyPutInterestStatus interestId cropId status now db).2 :=
  statusCommit_nonneg _ db
    (fun f u hp => legacyPutInterestStatusRead_guarded interestId cropId status now db f u hp) h

theorem pushInterest_nonneg (cropId : String) (ni : Interest) (now : Nat) (db : List Crop)
    (h : dbNonneg db) : dbNonneg (pushInterest cropId ni now db).1 := by
  unfold pushInterest dbNonneg
  refine updateFirst_preserves (fun c => 0 ≤ c.quantity) _ _ ?_ db h
  intro c _ hc
  exact hc

theorem postInterests_nonneg (r : InterestReq) (newId : String) (now : Nat) (db : List Crop)
    (h : dbNonneg db) : dbNonneg (postInterests r newId now db).2 := by
  unfold postInterests
  split_ifs with h1
  · exact h
  · cases hc : db.find? (fun c => c._id == r.cropId) with
    | none => exact h
    | some crop =>
      simp only []
      split_ifs <;> first
        | exact h
        | exact pushInterest_nonneg _ _ _ db h

theorem legacyPostInterests_nonneg (r : InterestReq) (newId : String) (now : Nat)
    (db : List Crop) (h : dbNonneg db) : dbNonneg (legacyPostInterests r newId now db).2 := by
  unfold legacyPostInterests
  split_ifs with h1
  · exact h
  · cases hc : db.find? (fun c => c._id == r.cropId) with
    | none => exact h
    | some crop =>
      simp only []
      split_ifs <;> first
        | exact h
        | exact pushInterest_nonneg _ _ _ db h

theorem putCrop_nonneg (cropId userEmail : String) (b : CropBody) (now : Nat)
    (db : List Crop) (h : dbNonneg db) : dbNonneg (putCrop cropId userEmail b now db).2 := by
  unfold putCrop
  cases hc : db.find? (fun c => c._id == cropId) with
  | none => exact h
  | some crop =>
    simp only []
    split_ifs with h1 h2 h3 h4
    any_goals exact h
    all_goals
      refine updateFirst_preserves (fun c => 0 ≤ c.quantity) _ _ ?_ db h
    all_goals
      intro c _ hcq
      unfold applyCropSet
      simp only []
      cases hq : (stripProtected b).quantity with
      | none => simpa using hcq
      | some v =>
        unfold badQuantity at h3
        rw [hq] at h3
        simp only [decide_eq_true_eq] at h3
        simp [le_of_not_lt h3]

theorem postCrops_nonneg (b : CropBody) (newId : String) (now : Nat) (db : List Crop)
    (h : dbNonneg db) : dbNonneg (postCrops b newId now db).2 := by
  unfold postCrops
  split_ifs with h1 h2 h3
  any_goals exact h
  intro c hc
  rcases List.mem_append.1 hc with hc | hc
  · exact h c hc
  · simp only [List.mem_singleton] at hc
    subst hc
    simp only []
    cases hq : b.quantity with
    | none => exact absurd (by simp [missingOrNonPos, hq]) h3
    | some v =>
      unfold missingOrNonPos at h3
      rw [hq] at h3
      simp only [decide_eq_true_eq] at h3
      simp [le_of_lt (lt_of_not_le h3)]

/-- C4 (amended): every embedded operation of the current application file and
the legacy interests router preserves `remaining_quantity >= 0`: the current
status transitions guard their decrement with a `$gte` filter, the legacy
status transition clamps with `Math.max(0, _)`, interest submission never
touches the crop quantity, and the current crop create/update routes validate
supplied quantities.  The router-variant crop update is the exception, see
the counterexample. -/
theorem operations_preserve_nonneg_quantity :
    (∀ interestId status now db, dbNonneg db →
        dbNonneg (patchInterestStatus interestId status now db).2) ∧
    (∀ interestId cropId status now db, dbNonneg db →
        dbNonneg (putInterestStatus interestId cropId status now db).2) ∧
    (∀ interestId cropId status now db, dbNonneg db →
        dbNonneg (legacyPutInterestStatus interestId cropId status now db).2) ∧
    (∀ r newId now db, dbNonneg db → dbNonneg (postInterests r newId now db).2) ∧
    (∀ r newId now db, dbNonneg db → dbNonneg (legacyPostInterests r newId now db).2) ∧
    (∀ cropId userEmail b now db, dbNonneg db →
        dbNonneg (putCrop cropId userEmail b now db).2) ∧
    (∀ b newId now db, dbNonneg db → dbNonneg (postCrops b newId now db).2) :=
  ⟨fun i s n db h => patchInterestStatus_nonneg i s n db h,
   fun i c s n db h => putInterestStatus_nonneg i c s n db h,
   fun i c s n db h => legacyPutInterestStatus_nonneg i c s n db h,
   fun r ni n db h => postInterests_nonneg r ni n db h,
   fun r ni n db h => legacyPostInterests_nonneg r ni n db h,
   fun c e b n db h => putCrop_nonneg c e b n db h,
   fun b ni n db h => postCrops_nonneg b ni n db h⟩

/-- C4 counterexample: the router-variant `PUT /api/crops/:id`
(`src/unnamed/part_000`) performs no quantity validation, so an owner update
supplying `quantity: -5` stores a negative remaining quantity, refuting the
claim that every public operation preserves `remaining_quantity >= 0`. -/
theorem routerPutCrop_negative_quantity_cex :
    dbNonneg [cEx] ∧
      ((routerPutCrop "c1" "own@x" negBody 5 [cEx]).2.head?).map Crop.quantity = some (-5) ∧
      ¬ dbNonneg (routerPutCrop "c1" "own@x" negBody 5 [cEx]).2 := by
  decide

/-- Witness instantiating each conjunct of
`operations_preserve_nonneg_quantity` on the concrete fixture store. -/
theorem operations_preserve_nonneg_quantity_witness :
    dbNonneg (patchInterestStatus "i1" "accepted" 3 [cEx]).2 ∧
    dbNonneg (putInterestStatus "i1" "c1" "accepted" 3 [cEx]).2 ∧
    dbNonneg (legacyPutInterestStatus "i1" "c1" "accepted" 3 [cEx]).2 ∧
    dbNonneg (postInterests ⟨"c1", "new@x", "N", some 10, none⟩ "i9" 3 [cEx]).2 ∧
    dbNonneg (legacyPostInterests ⟨"c1", "new@x", "N", some 10, none⟩ "i9" 3 [cEx]).2 ∧
    dbNonneg (putCrop "c1" "own@x" bodyEx 5 [cEx]).2 ∧
    dbNonneg (postCrops bodyEx "c9" 5 [cEx]).2 :=
  ⟨operations_preserve_nonneg_quantity.1 "i1" "accepted" 3 [cEx] (by decide),
   operations_preserve_nonneg_quantity.2.1 "i1" "c1" "accepted" 3 [cEx] (by decide),
   operations_preserve_nonneg_quantity.2.2.1 "i1" "c1" "accepted" 3 [cEx] (by decide),
   operations_preserve_nonneg_quantity.2.2.2.1 ⟨"c1", "new@x", "N", some 10, none⟩ "i9" 3 [cEx]
     (by decide),
   operations_preserve_nonneg_quantity.2.2.2.2.1 ⟨"c1", "new@x", "N", some 10, none⟩ "i9" 3 [cEx]
     (by decide),
   operations_preserve_nonneg_quantity.2.2.2.2.2.1 "c1" "own@x" bodyEx 5 [cEx] (by decide),
   operations_preserve_nonneg_quantity.2.2.2.2.2.2 bodyEx "c9" 5 [cEx] (by decide)⟩

/-! Lemmas for the concurrent-acceptance invariant. -/

theorem applyInterestSet_id (u : StatusUpdate) (i : Interest) :
    (applyInterestSet u i)._id = i._id := by
  unfold applyInterestSet
  split_ifs <;> rfl

theorem applyInterestSet_quantity (u : StatusUpdate) (i : Interest) :
    (applyInterestSet u i).quantity = i.quantity := by
  unfold applyInterestSet
  split_ifs <;> rfl

theorem interestSig_applyStatusUpdate (u : StatusUpdate) (c : Crop) :
    interestSig (applyStatusUpdate u c) = interestSig c := by
  unfold interestSig applyStatusUpdate
  simp only [List.map_map]
  congr 1
  funext i
  simp [Function.comp, applyInterestSet_id, applyInterestSet_quantity]

theorem find?_sig_eq (e : String) :
    ∀ l1 l2 : List Interest,
      l1.map (fun i => (i._id, i.quantity)) = l2.map (fun i => (i._id, i.quantity)) →
      Option.map (fun i => (i._id, i.quantity)) (l1.find? (fun i => i._id == e))
        = Option.map (fun i => (i._id, i.quantity)) (l2.find? (fun i => i._id == e)) := by
  intro l1
  induction l1 with
  | nil =>
    intro l2 h
    cases l2 with
    | nil => rfl
    | cons b t2 => simp at h
  | cons a t ih =>
    intro l2 h
    cases l2 with
    | nil => simp at h
    | cons b t2 =>
      simp only [List.map_cons, List.cons.injEq] at h
      obtain ⟨hab, ht⟩ := h
      have hid : a._id = b._id := congrArg Prod.fst hab
      by_cases he : (a._id == e) = true
      · have he2 : (b._id == e) = true := by rw [← hid]; exact he
        simp only [List.find?, he, he2]
        simp [hab]
      · have he1 : (a._id == e) = false := by simpa using he
        have he2 : (b._id == e) = false := by rw [← hid]; exact he1
        simp only [List.find?, he1, he2]
        exact ih t2 ht

theorem sumAccepted_map_applyInterestSet (u : StatusUpdate) (hacc : u.newStatus = "accepted") :
    ∀ l : List Interest, (l.map (fun i => i._id)).Nodup →
      ∀ i, l.find? (fun j => j._id == u.elemId) = some i →
      sumAccepted (l.map (applyInterestSet u))
        = sumAccepted l + (if i.status == "accepted" then 0 else i.quantity) := by
  intro l
  induction l with
  | nil => intro _ i h; simp at h
  | cons a t ih =>
    intro hnd i hfind
    simp only [List.map_cons, List.nodup_cons] at hnd
    obtain ⟨ha, hndt⟩ := hnd
    by_cases pa : (a._id == u.elemId) = true
    · simp only [List.find?, pa, Option.some.injEq] at hfind
      cases hfind
      have hae : a._id = u.elemId := by simpa using pa
      have ht : t.map (applyInterestSet u) = t := by
        have hpt : ∀ j ∈ t, applyInterestSet u j = j := by
          intro j hj
          unfold applyInterestSet
          rw [if_neg]
          intro hj2
          have hje : j._id = u.elemId := by simpa using hj2
          have hmem : a._id ∈ t.map (fun i => i._id) := by
            rw [hae, ← hje]
            exact List.mem_map_of_mem (fun x => x._id) hj
          exact ha hmem
        calc t.map (applyInterestSet u) = t.map (fun j => j) := List.map_congr_left hpt
          _ = t := List.map_id' t
      have hA : applyInterestSet u a = { a with status := u.newStatus, updatedAt := some u.now } := by
        unfold applyInterestSet
        rw [if_pos pa]
      rw [List.map_cons, ht, hA, hacc]
      simp [sumAccepted]
      split_ifs <;> ring
    · have pa2 : (a._id == u.elemId) = false := by simpa using pa
      simp only [List.find?, pa2] at hfind
      have hx : applyInterestSet u a = a := by
        unfold applyInterestSet
        rw [if_neg pa]
      rw [List.map_cons, hx]
      simp only [sumAccepted]
      rw [ih hndt i hfind]
      ring

theorem sumAccepted_of_no_accepted :
    ∀ l : List Interest, (∀ i ∈ l, i.status ≠ "accepted") → sumAccepted l = 0 := by
  intro l
  induction l with
  | nil => intro _; rfl
  | cons a t ih =>
    intro h
    simp only [sumAccepted]
    rw [if_neg (by simpa using h a (by simp)), ih (fun i hi => h i (by simp [hi]))]
    ring

theorem patchRead_singleton_commit (snap : Crop) (iid : String) (now : Nat)
    (f : CropFilter) (u : StatusUpdate)
    (h : patchInterestRead iid "accepted" now [snap] = .commit f u) :
    ∃ i, snap.interests.find? (fun j => j._id == iid) = some i ∧
      f._id = snap._id ∧ u.newStatus = "accepted" ∧ u.elemId = iid ∧ u.setQuantity = none ∧
      ((0 < i.quantity ∧ f.minQuantity = some i.quantity ∧ u.incQuantity = some (-i.quantity))
        ∨ (i.quantity ≤ 0 ∧ f.minQuantity = none ∧ u.incQuantity = none)) := by
  unfold patchInterestRead at h
  repeat' split at h
  case _ => exact absurd h (by simp)
  case _ => exact absurd h (by simp)
  case _ => exact absurd h (by simp)
  case _ => exact absurd h (by simp)
  case _ => exact absurd h (by simp)
  case _ => exact absurd h (by simp)
  case _ =>
    rename_i hs1 hs2 ocrop crop heqc oint interest heqi hnotacc hcond hnotlt
    injection h with h1 h2
    subst h1
    subst h2
    have hcs : crop = snap := by
      have hm := List.mem_of_find?_eq_some heqc
      simpa using hm
    subst hcs
    exact ⟨interest, heqi, rfl, rfl, rfl, rfl, Or.inl ⟨hcond.2, rfl, rfl⟩⟩
  case _ =>
    rename_i hs1 hs2 ocrop crop heqc oint interest heqi hnotacc hncond
    injection h with h1 h2
    subst h1
    subst h2
    have hcs : crop = snap := by
      have hm := List.mem_of_find?_eq_some heqc
      simpa using hm
    subst hcs
    have hq : interest.quantity ≤ 0 := by
      by_contra hq
      exact hncond ⟨rfl, lt_of_not_le hq⟩
    exact ⟨interest, heqi, rfl, rfl, rfl, rfl, Or.inr ⟨hq, rfl, rfl⟩⟩

theorem patch_accept_run_invariant (c0 : Crop) (db : List Crop)
    (hrun : AcceptRun c0 db) (hq0 : 0 ≤ c0.quantity)
    (hnd : (c0.interests.map (fun i => i._id)).Nodup) :
    ∃ c, db = [c] ∧ c._id = c0._id ∧ interestSig c = interestSig c0 ∧
      0 ≤ c.quantity ∧
      c.quantity + sumAccepted c.interests ≤ c0.quantity + sumAccepted c0.interests := by
  induction hrun with
  | refl => exact ⟨c0, rfl, rfl, rfl, hq0, le_refl _⟩
  | step db snap iid now hrun hsid hsig ih =>
    obtain ⟨c, rfl, hcid, hcsig, hcq, hcsum⟩ := ih
    cases hplan : patchInterestRead iid "accepted" now [snap] with
    | err r =>
      refine ⟨c, ?_, hcid, hcsig, hcq, hcsum⟩
      simp [statusCommit, hplan]
    | commit f u =>
      obtain ⟨i, hfind, hfid, hacc, helem, hset, hcase⟩ :=
        patchRead_singleton_commit snap iid now f u hplan
      by_cases hm : matchesFilter f c = true
      · have hres : (statusCommit (StatusPlan.commit f u) [c]).2
            = [applyStatusUpdate u c] := by
          simp [statusCommit, updateOne, updateFirst, hm]
        have hsigc : c.interests.map (fun j => (j._id, j.quantity))
            = snap.interests.map (fun j => (j._id, j.quantity)) := by
          have h1 : interestSig c = interestSig snap := hcsig.trans hsig.symm
          simpa [interestSig] using h1
        have hfc := find?_sig_eq iid c.interests snap.interests hsigc
        rw [hfind] at hfc
        cases hfcc : c.interests.find? (fun j => j._id == iid) with
        | none => rw [hfcc] at hfc; simp at hfc
        | some ic =>
          rw [hfcc] at hfc
          simp only [Option.map_some'] at hfc
          injection hfc with hpair
          have hicq : ic.quantity = i.quantity := congrArg Prod.snd hpair
          have hidsc : c.interests.map (fun j => j._id) = c0.interests.map (fun j => j._id) := by
            have h2 := congrArg (List.map Prod.fst) hcsig
            simpa [interestSig, List.map_map, Function.comp] using h2
          have hndc : (c.interests.map (fun j => j._id)).Nodup := by
            rw [hidsc]; exact hnd
          have hfcc2 : c.interests.find? (fun j => j._id == u.elemId) = some ic := by
            rw [helem]; exact hfcc
          have hsum := sumAccepted_map_applyInterestSet u hacc c.interests hndc ic hfcc2
          have hints : (applyStatusUpdate u c).interests = c.interests.map (applyInterestSet u) := by
            simp [applyStatusUpdate]
          refine ⟨applyStatusUpdate u c, hres, ?_, (interestSig_applyStatusUpdate u c).trans hcsig,
            ?_, ?_⟩
          · simpa [applyStatusUpdate] using hcid
          · rcases hcase with ⟨hipos, hmin, hinc⟩ | ⟨hineg, hmin, hinc⟩
            · have hq2 : (applyStatusUpdate u c).quantity = c.quantity + (-i.quantity) := by
                simp [applyStatusUpdate, hset, hinc]
              have hle : i.quantity ≤ c.quantity := by
                unfold matchesFilter at hm
                rw [hmin] at hm
                simp only [Bool.and_eq_true, decide_eq_true_eq] at hm
                exact hm.2
              rw [hq2]
              linarith
            · have hq2 : (applyStatusUpdate u c).quantity = c.quantity := by
                simp [applyStatusUpdate, hset, hinc]
              rw [hq2]
              exact hcq
          · rw [hints, hsum]
            rcases hcase with ⟨hipos, hmin, hinc⟩ | ⟨hineg, hmin, hinc⟩
            · have hq2 : (applyStatusUpdate u c).quantity = c.quantity + (-i.quantity) := by
                simp [applyStatusUpdate, hset, hinc]
              rw [hq2]
              split_ifs
              · linarith
              · rw [hicq]; linarith
            · have hq2 : (applyStatusUpdate u c).quantity = c.quantity := by
                simp [applyStatusUpdate, hset, hinc]
              rw [hq2]
              split_ifs
              · linarith
              · rw [hicq]; linarith
      · refine ⟨c, ?_, hcid, hcsig, hcq, hcsum⟩
        simp [statusCommit, updateOne, updateFirst, hm]

/-- C2 (amended): for every interleaving of concurrent
`PATCH /api/interests/:id` acceptance attempts against one crop — modelled by
`AcceptRun`, where each attempt's conditional update is committed against the
current store while its plan may come from an arbitrarily stale snapshot —
the remaining quantity never goes negative and the sum of the requested
quantities of the interests that reach `accepted` never exceeds the crop's
quantity when the attempts began.  The conditional `quantity: { $gte: _ }`
filter of the single `updateOne` carries the whole argument.  The legacy
router's unconditional read-modify-write does not satisfy this property; see
the counterexample. -/
theorem patch_accept_no_oversell (c0 : Crop) (db : List Crop)
    (hrun : AcceptRun c0 db) (hq0 : 0 ≤ c0.quantity)
    (hnd : (c0.interests.map (fun i => i._id)).Nodup)
    (hpend : ∀ i ∈ c0.interests, i.status ≠ "accepted") :
    ∃ c, db = [c] ∧ 0 ≤ c.quantity ∧ sumAccepted c.interests ≤ c0.quantity := by
  obtain ⟨c, rfl, _, _, hcq, hcsum⟩ := patch_accept_run_invariant c0 db hrun hq0 hnd
  rw [sumAccepted_of_no_accepted c0.interests hpend] at hcsum
  exact ⟨c, rfl, hcq, by linarith⟩

/-- Witness: the concrete interleaving read A, read B, commit A, commit B of
two PATCH acceptance attempts (60 kg and 50 kg against the 100 kg crop
`cEx`); the second commit's stale plan is rejected by the conditional filter
and the accepted total stays within the initial quantity. -/
theorem patch_accept_no_oversell_witness :
    ∃ c, patchRaceDb2 = [c] ∧ 0 ≤ c.quantity ∧ sumAccepted c.interests ≤ cEx.quantity :=
  patch_accept_no_oversell cEx patchRaceDb2
    (AcceptRun.step patchRaceDb1 cEx "i2" 2
      (AcceptRun.step [cEx] cEx "i1" 1 AcceptRun.refl rfl rfl) rfl rfl)
    (by decide) (by decide) (by decide)

/-- C2 counterexample: under the legacy router's `PUT /api/interests/status`,
the interleaving read A, read B, commit A, commit B of the same two
acceptance attempts (60 kg and 50 kg against the 100 kg crop) drives **both**
interests to `accepted`: the accepted quantities sum to 110 against an
initial remaining quantity of 100, refuting the no-oversell claim for the
implementation as a whole. -/
theorem legacy_concurrent_oversell_cex :
    cEx.quantity = 100 ∧
      legacyRaceDb2.map (fun c => (c.interests.map Interest.status, sumAccepted c.interests))
        = [(["accepted", "accepted"], 110)] ∧
      ¬ (110 : Int) ≤ cEx.quantity := by
  decide

/-- C1 (amended): on the current handlers (`PATCH /api/interests/:id` and
`PUT /api/interests/status`), every accept transition of an interest with a
positive requested quantity issues exactly one conditional `updateOne` whose
filter matches the crop identity **and** `quantity: { $gte: requested }`,
whose update decrements `quantity` by exactly the requested amount (`$inc`,
never an absolute `$set` from a prior read) and sets that interest's status
to `accepted` with a fresh timestamp in the same update object; and an
update that matches zero documents changes nothing, so the decrement and the
status write commit together or not at all.  The legacy router violates
this; see the counterexample. -/
theorem accept_issues_single_conditional_update :
    (∀ iid now db f u c i,
        patchInterestRead iid "accepted" now db = StatusPlan.commit f u →
        db.find? (fun c2 => c2.interests.any (fun j => j._id == iid)) = some c →
        c.interests.find? (fun j => j._id == iid) = some i →
        0 < i.quantity →
        f = ⟨c._id, some i.quantity⟩ ∧
          u = ⟨"accepted", iid, now, none, some (-i.quantity)⟩) ∧
    (∀ iid cid now db f u c i,
        putInterestStatusRead iid cid "accepted" now db = StatusPlan.commit f u →
        db.find? (fun c2 => c2._id == cid) = some c →
        c.interests.find? (fun j => j._id == iid) = some i →
        0 < i.quantity →
        f = ⟨cid, some i.quantity⟩ ∧
          u = ⟨"accepted", iid, now, none, some (-i.quantity)⟩) ∧
    (∀ f u db, (updateOne f u db).2 = 0 → (updateOne f u db).1 = db) := by
  refine ⟨?_, ?_, ?_⟩
  · intro iid now db f u c i h hfc hfi hpos
    unfold patchInterestRead at h
    repeat' split at h
    case _ => exact absurd h (by simp)
    case _ => exact absurd h (by simp)
    case _ => exact absurd h (by simp)
    case _ => exact absurd h (by simp)
    case _ => exact absurd h (by simp)
    case _ => exact absurd h (by simp)
    case _ =>
      rename_i hs1 hs2 ocrop crop heqc oint interest heqi hnotacc hcond hnotlt
      injection h with h1 h2
      have hceq : crop = c := Option.some.inj (heqc.symm.trans hfc)
      subst hceq
      have hieq : interest = i := Option.some.inj (heqi.symm.trans hfi)
      subst hieq
      exact ⟨h1.symm, h2.symm⟩
    case _ =>
      rename_i hs1 hs2 ocrop crop heqc oint interest heqi hnotacc hncond
      have hceq : crop = c := Option.some.inj (heqc.symm.trans hfc)
      subst hceq
      have hieq : interest = i := Option.some.inj (heqi.symm.trans hfi)
      subst hieq
      exact absurd ⟨rfl, hpos⟩ hncond
  · intro iid cid now db f u c i h hfc hfi hpos
    unfold putInterestStatusRead at h
    repeat' split at h
    case _ => exact absurd h (by simp)
    case _ => exact absurd h (by simp)
    case _ => exact absurd h (by simp)
    case _ => exact absurd h (by simp)
    case _ => exact absurd h (by simp)
    case _ => exact absurd h (by simp)
    case _ =>
      rename_i hs1 hs2 ocrop crop heqc oint interest heqi hnotacc hcond hnotlt
      injection h with h1 h2
      have hceq : crop = c := Option.some.inj (heqc.symm.trans hfc)
      subst hceq
      have hieq : interest = i := Option.some.inj (heqi.symm.trans hfi)
      subst hieq
      exact ⟨h1.symm, h2.symm⟩
    case _ =>
      rename_i hs1 hs2 ocrop crop heqc oint interest heqi hnotacc hncond
      have hceq : crop = c := Option.some.inj (heqc.symm.trans hfc)
      subst hceq
      have hieq : interest = i := Option.some.inj (heqi.symm.trans hfi)
      subst hieq
      exact absurd ⟨rfl, hpos⟩ hncond
  · intro f u db h
    exact updateFirst_snd_eq_zero (matchesFilter f) (applyStatusUpdate u) db h

/-- Witness instantiating `accept_issues_single_conditional_update` on the
fixture store: both current routes plan the conditional decrement for the
60 kg interest, and a zero-match conditional update (stock already down to
50) leaves the store untouched. -/
theorem accept_issues_single_conditional_update_witness :
    ((⟨"c1", some 60⟩ : CropFilter) = ⟨cEx._id, some iEx1.quantity⟩ ∧
      (⟨"accepted", "i1", 3, none, some (-60)⟩ : StatusUpdate)
        = ⟨"accepted", "i1", 3, none, some (-iEx1.quantity)⟩) ∧
    ((⟨"c1", some 60⟩ : CropFilter) = ⟨"c1", some iEx1.quantity⟩ ∧
      (⟨"accepted", "i1", 4, none, some (-60)⟩ : StatusUpdate)
        = ⟨"accepted", "i1", 4, none, some (-iEx1.quantity)⟩) ∧
    (updateOne ⟨"c1", some 60⟩ ⟨"accepted", "i1", 1, none, some (-60)⟩ [cShrunk]).1
      = [cShrunk] :=
  ⟨accept_issues_single_conditional_update.1 "i1" 3 [cEx] _ _ cEx iEx1
      (by decide) (by decide) (by decide) (by decide),
   accept_issues_single_conditional_update.2.1 "i1" "c1" 4 [cEx] _ _ cEx iEx1
      (by decide) (by decide) (by decide) (by decide),
   accept_issues_single_conditional_update.2.2 ⟨"c1", some 60⟩
      ⟨"accepted", "i1", 1, none, some (-60)⟩ [cShrunk] (by decide)⟩

/-- C1 counterexample: the legacy router's accept of the pending 60 kg
interest on the 100 kg crop issues an update whose filter carries **no**
quantity precondition and whose quantity write is an absolute
`$set: { quantity: 40 }` computed from the separate read — an unconditional
write after a read, refuting the claim for the implementation as a whole. -/
theorem legacy_accept_unconditional_update_cex :
    legacyPutInterestStatusRead "i1" "c1" "accepted" 7 [cEx]
      = StatusPlan.commit ⟨"c1", none⟩ ⟨"accepted", "i1", 7, some 40, none⟩ ∧
    iEx1.quantity = 60 ∧ (0 : Int) < 60 := by
  decide

/-- C3 (amended): when the pre-check read of `PATCH /api/interests/:id` sees
`crop.quantity < interest.quantity` for a positive-quantity accept of a
not-yet-accepted interest, the handler fails with the 400 insufficiency
response reporting both the requested and the available amount and the store
is unchanged.  When the conditional update matches zero documents at commit
time, however, the handler fails with the **generic** 500
`Failed to update interest status` response (an `Unavailable`-style error),
not with the insufficiency error the spec prescribes. -/
theorem insufficient_stock_handling :
    (∀ iid now db c i,
        db.find? (fun c2 => c2.interests.any (fun j => j._id == iid)) = some c →
        c.interests.find? (fun j => j._id == iid) = some i →
        i.status ≠ "accepted" →
        0 < i.quantity →
        c.quantity < i.quantity →
        patchInterestStatus iid "accepted" now db
          = (⟨400, false, insufficientMsg i.quantity c.quantity, none⟩, db)) ∧
    (∀ f u db, (updateOne f u db).2 = 0 →
        statusCommit (StatusPlan.commit f u) db
          = (⟨500, false, failedUpdateMsg, none⟩, db)) := by
  constructor
  · intro iid now db c i hfc hfi hna hpos hlt
    have hread : patchInterestRead iid "accepted" now db
        = .err ⟨400, false, insufficientMsg i.quantity c.quantity, none⟩ := by
      simp [patchInterestRead, patchValidStatuses, hfc, hfi, hna, hpos, hlt]
    unfold patchInterestStatus
    rw [hread]
    simp [statusCommit]
  · intro f u db h
    have h1 : (updateOne f u db).1 = db :=
      updateFirst_snd_eq_zero (matchesFilter f) (applyStatusUpdate u) db h
    simp [statusCommit, h, h1]

/-- Witness instantiating `insufficient_stock_handling`: accepting the 60 kg
interest on the crop shrunk to 50 kg fails with the insufficiency report and
no mutation, and a zero-match conditional update yields the generic 500. -/
theorem insufficient_stock_handling_witness :
    patchInterestStatus "i1" "accepted" 9 [cShrunk]
        = (⟨400, false, insufficientMsg 60 50, none⟩, [cShrunk]) ∧
      statusCommit (StatusPlan.commit ⟨"c1", some 60⟩ ⟨"accepted", "i1", 9, none, some (-60)⟩)
          [cShrunk]
        = (⟨500, false, failedUpdateMsg, none⟩, [cShrunk]) :=
  ⟨insufficient_stock_handling.1 "i1" 9 [cShrunk] cShrunk iEx1
      (by decide) (by decide) (by decide) (by decide) (by decide),
   insufficient_stock_handling.2 ⟨"c1", some 60⟩ ⟨"accepted", "i1", 9, none, some (-60)⟩
      [cShrunk] (by decide)⟩

/-- C3 counterexample: a conditional accept planned against the 100 kg
snapshot commits against the store after stock fell to 50; the update matches
zero documents and the handler answers with the generic 500
`Failed to update interest status`, not an `InsufficientStock` error (the
code's insufficiency responses are 400 with the two amounts in the message),
refuting the second half of the claim. -/
theorem stale_accept_zero_match_generic_error_cex :
    statusCommit (patchInterestRead "i1" "accepted" 1 [cEx]) [cShrunk]
        = (⟨500, false, failedUpdateMsg, none⟩, [cShrunk]) ∧
      failedUpdateMsg ≠ insufficientMsg 60 50 ∧
      (⟨500, false, failedUpdateMsg, none⟩ : Resp).status ≠ 400 := by
  decide

/-- C5 (amended): on the current handlers (`PATCH /api/interests/:id` and
`PUT /api/interests/status`), re-requesting `accepted` on an interest already
in status `accepted` fails with the 400 `Interest has already been accepted`
response and performs no mutation — in particular the crop quantity is not
decremented a second time.  The legacy router has no such check; see the
counterexample. -/
theorem reaccept_already_accepted_fails :
    (∀ iid now db c i,
        db.find? (fun c2 => c2.interests.any (fun j => j._id == iid)) = some c →
        c.interests.find? (fun j => j._id == iid) = some i →
        i.status = "accepted" →
        patchInterestStatus iid "accepted" now db
          = (⟨400, false, alreadyAcceptedMsg, none⟩, db)) ∧
    (∀ iid cid now db c i,
        iid ≠ "" → cid ≠ "" →
        db.find? (fun c2 => c2._id == cid) = some c →
        c.interests.find? (fun j => j._id == iid) = some i →
        i.status = "accepted" →
        putInterestStatus iid cid "accepted" now db
          = (⟨400, false, alreadyAcceptedMsg, none⟩, db)) := by
  constructor
  · intro iid now db c i hfc hfi hacc
    have hread : patchInterestRead iid "accepted" now db
        = .err ⟨400, false, alreadyAcceptedMsg, none⟩ := by
      simp [patchInterestRead, patchValidStatuses, hfc, hfi, hacc]
    unfold patchInterestStatus
    rw [hread]
    simp [statusCommit]
  · intro iid cid now db c i hii hci hfc hfi hacc
    have hread : putInterestStatusRead iid cid "accepted" now db
        = .err ⟨400, false, alreadyAcceptedMsg, none⟩ := by
      simp [putInterestStatusRead, putValidStatuses, hii, hci, hfc, hfi, hacc]
    unfold putInterestStatus
    rw [hread]
    simp [statusCommit]

/-- Witness instantiating `reaccept_already_accepted_fails` on the crop whose
only interest is already accepted: both current routes answer 400 and leave
the store unchanged. -/
theorem reaccept_already_accepted_fails_witness :
    patchInterestStatus "i1" "accepted" 7 [cAcc]
        = (⟨400, false, alreadyAcceptedMsg, none⟩, [cAcc]) ∧
      putInterestStatus "i1" "c1" "accepted" 7 [cAcc]
        = (⟨400, false, alreadyAcceptedMsg, none⟩, [cAcc]) :=
  ⟨reaccept_already_accepted_fails.1 "i1" 7 [cAcc] cAcc iAcc
      (by decide) (by decide) (by decide),
   reaccept_already_accepted_fails.2 "i1" "c1" 7 [cAcc] cAcc iAcc
      (by decide) (by decide) (by decide) (by decide) (by decide)⟩

/-- C5 counterexample: the legacy router re-accepts the already-accepted
30 kg interest with a 200 success and decrements the 100 kg crop to 70 —
a second decrement and a mutation, refuting the claim for the implementation
as a whole. -/
theorem legacy_reaccept_decrements_again_cex :
    iAcc.status = "accepted" ∧ cAcc.quantity = 100 ∧
      (legacyPutInterestStatus "i1" "c1" "accepted" 7 [cAcc]).1.status = 200 ∧
      (legacyPutInterestStatus "i1" "c1" "accepted" 7 [cAcc]).2.map Crop.quantity = [70] := by
  decide

/-- C9 (amended): the `PATCH /api/interests/:id` handler validates the target
status against `{accepted, rejected, pending, cancelled}`, failing any other
value (including the missing-field case) with a 400 validation error before
any store interaction, and treats `cancelled` as a valid target (its read
phase never produces a validation error for `cancelled`).  The two
`PUT /api/interests/status` handlers validate against
`{accepted, rejected, pending}` only and reject `cancelled` with
`InvalidArgument`. -/
theorem status_validation :
    (∀ iid s now db, s ∉ patchValidStatuses →
        patchInterestStatus iid s now db
          = (⟨400, false, if s = "" then missingStatusMsg else invalidStatusPatchMsg, none⟩,
             db)) ∧
    (∀ iid now db r, patchInterestRead iid "cancelled" now db = .err r →
        r.message ≠ invalidStatusPatchMsg ∧ r.message ≠ missingStatusMsg) ∧
    (∀ iid cid now db, iid ≠ "" → cid ≠ "" →
        putInterestStatus iid cid "cancelled" now db
          = (⟨400, false, invalidStatusPutMsg, none⟩, db)) ∧
    (∀ iid cid now db, iid ≠ "" → cid ≠ "" →
        legacyPutInterestStatus iid cid "cancelled" now db
          = (⟨400, false, invalidStatusPutMsg, none⟩, db)) := by
  refine ⟨?_, ?_, ?_, ?_⟩
  · intro iid s now db hns
    have hread : patchInterestRead iid s now db
        = .err ⟨400, false, if s = "" then missingStatusMsg else invalidStatusPatchMsg, none⟩ := by
      by_cases hs : s = ""
      · subst hs
        simp [patchInterestRead]
      · simp [patchInterestRead, hs, hns]
    unfold patchInterestStatus
    rw [hread]
    simp [statusCommit]
  · intro iid now db r h
    unfold patchInterestRead at h
    repeat' split at h
    case _ =>
      rename_i hcond
      exact absurd hcond (by decide)
    case _ =>
      rename_i hcond
      exact absurd hcond (by decide)
    case _ =>
      injection h with h1
      subst h1
      exact ⟨by decide, by decide⟩
    case _ =>
      injection h with h1
      subst h1
      exact ⟨by decide, by decide⟩
    case _ =>
      rename_i hcond
      exact absurd hcond.2 (by decide)
    case _ =>
      rename_i hcond hlt
      exact absurd hcond.1 (by decide)
    case _ => exact absurd h (by simp)
    case _ => exact absurd h (by simp)
  · intro iid cid now db hii hci
    have hread : putInterestStatusRead iid cid "cancelled" now db
        = .err ⟨400, false, invalidStatusPutMsg, none⟩ := by
      simp [putInterestStatusRead, putValidStatuses, hii, hci]
    unfold putInterestStatus
    rw [hread]
    simp [statusCommit]
  · intro iid cid now db hii hci
    have hread : legacyPutInterestStatusRead iid cid "cancelled" now db
        = .err ⟨400, false, invalidStatusPutMsg, none⟩ := by
      simp [legacyPutInterestStatusRead, putValidStatuses, hii, hci]
    unfold legacyPutInterestStatus
    rw [hread]
    simp [statusCommit]

/-- Witness instantiating `status_validation` on the fixture store: an
unknown status is rejected by the PATCH route, `cancelled` produces a
not-found rather than a validation error there, and both PUT handlers reject
`cancelled`. -/
theorem status_validation_witness :
    patchInterestStatus "i1" "bogus" 3 [cEx]
        = (⟨400, false, invalidStatusPatchMsg, none⟩, [cEx]) ∧
      (interestNotFoundMsg ≠ invalidStatusPatchMsg ∧ interestNotFoundMsg ≠ missingStatusMsg) ∧
      putInterestStatus "i1" "c1" "cancelled" 3 [cEx]
        = (⟨400, false, invalidStatusPutMsg, none⟩, [cEx]) ∧
      legacyPutInterestStatus "i1" "c1" "cancelled" 3 [cEx]
        = (⟨400, false, invalidStatusPutMsg, none⟩, [cEx]) :=
  ⟨status_validation.1 "i1" "bogus" 3 [cEx] (by decide),
   status_validation.2.1 "i9" 3 [] ⟨404, false, interestNotFoundMsg, none⟩ (by decide),
   status_validation.2.2.1 "i1" "c1" 3 [cEx] (by decide) (by decide),
   status_validation.2.2.2 "i1" "c1" 3 [cEx] (by decide) (by decide)⟩

/-- C9 counterexample: `cancelled` belongs to the spec's status set, yet the
`PUT /api/interests/status` transition operations (current and legacy) reject
it as an invalid status, refuting the claim that every status in the set is
recognized as a valid target by the transition operation. -/
theorem put_status_rejects_cancelled_cex :
    putInterestStatus "i1" "c1" "cancelled" 2 [cEx]
        = (⟨400, false, invalidStatusPutMsg, none⟩, [cEx]) ∧
      legacyPutInterestStatus "i1" "c1" "cancelled" 2 [cEx]
        = (⟨400, false, invalidStatusPutMsg, none⟩, [cEx]) ∧
      "cancelled" ∈ patchValidStatuses := by
  decide

/-- C6 (amended): on the current `POST /api/interests` handler, a submission
whose read quantity (`quantity || 0`) is zero or negative fails with a 400
validation error (negative and zero have distinct messages) and nothing is
appended — the store is unchanged.  The legacy router stores the raw value
without validation; see the counterexample. -/
theorem submission_rejects_nonpositive_quantity (r : InterestReq) (newId : String) (now : Nat)
    (db : List Crop) (c : Crop)
    (h1 : r.cropId ≠ "") (h2 : r.userEmail ≠ "") (h3 : r.userName ≠ "")
    (hfc : db.find? (fun c2 => c2._id == r.cropId) = some c)
    (hdup : c.interests.any (fun i => i.userEmail == r.userEmail) = false)
    (hq : jsOrZero r.quantity ≤ 0) :
    postInterests r newId now db
      = (⟨400, false,
          if jsOrZero r.quantity < 0 then negativeQuantityMsg else zeroQuantityMsg, none⟩,
         db) := by
  by_cases hlt : jsOrZero r.quantity < 0
  · simp [postInterests, h1, h2, h3, hfc, hdup, hlt]
  · have h0 : jsOrZero r.quantity = 0 := le_antisymm hq (not_lt.1 hlt)
    simp [postInterests, h1, h2, h3, hfc, hdup, hlt, h0]

/-- Witness instantiating `submission_rejects_nonpositive_quantity`: a
zero-quantity submission to the fixture crop by a new buyer fails with the
400 `Quantity must be greater than 0` response and the store is unchanged. -/
theorem submission_rejects_nonpositive_quantity_witness :
    postInterests ⟨"c1", "new@x", "N", some 0, none⟩ "i9" 3 [cEx]
      = (⟨400, false,
          if jsOrZero (some 0) < 0 then negativeQuantityMsg else zeroQuantityMsg, none⟩,
         [cEx]) :=
  submission_rejects_nonpositive_quantity ⟨"c1", "new@x", "N", some 0, none⟩ "i9" 3 [cEx] cEx
    (by decide) (by decide) (by decide) (by decide) (by decide) (by decide)

/-- C6 counterexample: the legacy `POST /api/interests` router performs no
quantity validation — a zero-quantity submission succeeds with 201 and the
interest is appended to the crop with quantity 0, refuting the claim for the
implementation as a whole. -/
theorem legacy_zero_quantity_interest_stored_cex :
    (legacyPostInterests ⟨"c1", "new@x", "N", some 0, none⟩ "i9" 3 [cEx]).1
        = ⟨201, true, interestAddedMsg, none⟩ ∧
      (legacyPostInterests ⟨"c1", "new@x", "N", some 0, none⟩ "i9" 3 [cEx]).2.map
          (fun c => c.interests.map (fun i => (i._id, i.quantity)))
        = [[("i1", 60), ("i2", 50), ("i9", 0)]] := by
  decide

/-- C7: on both interest-submission implementations, a submission whose
buyer email already appears among the target crop's interests fails with the
400 `You have already shown interest in this crop` response and the store —
including the original interest — is unchanged. -/
theorem duplicate_interest_conflict :
    (∀ (r : InterestReq) (newId : String) (now : Nat) (db : List Crop) (c : Crop),
        r.cropId ≠ "" → r.userEmail ≠ "" → r.userName ≠ "" →
        db.find? (fun c2 => c2._id == r.cropId) = some c →
        c.interests.any (fun i => i.userEmail == r.userEmail) = true →
        postInterests r newId now db = (⟨400, false, duplicateInterestMsg, none⟩, db)) ∧
    (∀ (r : InterestReq) (newId : String) (now : Nat) (db : List Crop) (c : Crop),
        r.cropId ≠ "" → r.userEmail ≠ "" → r.userName ≠ "" →
        db.find? (fun c2 => c2._id == r.cropId) = some c →
        c.interests.any (fun i => i.userEmail == r.userEmail) = true →
        legacyPostInterests r newId now db = (⟨400, false, duplicateInterestMsg, none⟩, db)) := by
  constructor
  · intro r newId now db c h1 h2 h3 hfc hdup
    simp [postInterests, h1, h2, h3, hfc, hdup]
  · intro r newId now db c h1 h2 h3 hfc hdup
    simp [legacyPostInterests, h1, h2, h3, hfc, hdup]

/-- Witness instantiating `duplicate_interest_conflict`: buyer `b1@x`, who
already has the pending 60 kg interest on the fixture crop, submits again —
both implementations answer 400 and leave the store unchanged. -/
theorem duplicate_interest_conflict_witness :
    postInterests ⟨"c1", "b1@x", "B1", some 10, none⟩ "i9" 3 [cEx]
        = (⟨400, false, duplicateInterestMsg, none⟩, [cEx]) ∧
      legacyPostInterests ⟨"c1", "b1@x", "B1", some 10, none⟩ "i9" 3 [cEx]
        = (⟨400, false, duplicateInterestMsg, none⟩, [cEx]) :=
  ⟨duplicate_interest_conflict.1 ⟨"c1", "b1@x", "B1", some 10, none⟩ "i9" 3 [cEx] cEx
      (by decide) (by decide) (by decide) (by decide) (by decide),
   duplicate_interest_conflict.2 ⟨"c1", "b1@x", "B1", some 10, none⟩ "i9" 3 [cEx] cEx
      (by decide) (by decide) (by decide) (by decide) (by decide)⟩

/-- C8 (amended): on the current `POST /api/interests` handler, every valid
submission (crop found, no duplicate, positive quantity) succeeds with 201
and appends the new interest in `pending` state; the response carries the
advisory availability warning exactly when the requested quantity exceeds
the crop's currently recorded remaining quantity, and no warning otherwise.
The legacy router never returns a warning; see the counterexample. -/
theorem submission_soft_capacity_warning (r : InterestReq) (newId : String) (now : Nat)
    (db : List Crop) (c : Crop)
    (h1 : r.cropId ≠ "") (h2 : r.userEmail ≠ "") (h3 : r.userName ≠ "")
    (hfc : db.find? (fun c2 => c2._id == r.cropId) = some c)
    (hdup : c.interests.any (fun i => i.userEmail == r.userEmail) = false)
    (hq : 0 < jsOrZero r.quantity) :
    ∃ l1 l2, db = l1 ++ c :: l2 ∧
      postInterests r newId now db
        = (⟨201, true, interestAddedMsg,
            if c.quantity < jsOrZero r.quantity
            then some (availabilityWarning (jsOrZero r.quantity) c.quantity c.unit)
            else none⟩,
           l1 ++
             { c with
               interests := c.interests ++ [mkInterest newId r (jsOrZero r.quantity) now]
               updatedAt := now } :: l2) := by
  obtain ⟨l1, l2, hdb, hl1, hupd⟩ :=
    updateFirst_of_find? (fun c2 => c2._id == r.cropId)
      (fun c2 =>
        { c2 with
          interests := c2.interests ++ [mkInterest newId r (jsOrZero r.quantity) now]
          updatedAt := now })
      db c hfc
  have h4 : ¬ jsOrZero r.quantity < 0 := by omega
  have h5 : ¬ jsOrZero r.quantity = 0 := by omega
  refine ⟨l1, l2, hdb, ?_⟩
  simp [postInterests, pushInterest, h1, h2, h3, hfc, hdup, h4, h5, hupd]

/-- Witness instantiating `submission_soft_capacity_warning` with an
over-sized 120 kg request against the 100 kg fixture crop: the submission
succeeds with the availability warning and the pending interest appended. -/
theorem submission_soft_capacity_warning_witness :
    ∃ l1 l2, [cEx] = l1 ++ cEx :: l2 ∧
      postInterests ⟨"c1", "new@x", "N", some 120, none⟩ "i9" 3 [cEx]
        = (⟨201, true, interestAddedMsg,
            if cEx.quantity < jsOrZero (some 120)
            then some (availabilityWarning (jsOrZero (some 120)) cEx.quantity cEx.unit)
            else none⟩,
           l1 ++
             { cEx with
               interests := cEx.interests ++
                 [mkInterest "i9" ⟨"c1", "new@x", "N", some 120, none⟩ (jsOrZero (some 120)) 3]
               updatedAt := 3 } :: l2) :=
  submission_soft_capacity_warning ⟨"c1", "new@x", "N", some 120, none⟩ "i9" 3
    [cEx] cEx (by decide) (by decide) (by decide) (by decide) (by decide) (by decide)

/-- C8 counterexample: the legacy `POST /api/interests` router accepts the
same over-sized 120 kg request against the 100 kg crop but its response
carries no warning at all, refuting the advisory-warning claim for the
implementation as a whole. -/
theorem legacy_oversized_submission_no_warning_cex :
    cEx.quantity = 100 ∧
      (legacyPostInterests ⟨"c1", "new@x", "N", some 120, none⟩ "i9" 3 [cEx]).1
        = ⟨201, true, interestAddedMsg, none⟩ := by
  decide

end KrishiLink
